import Mathlib

/-!
# Verification of `html2pdf.py`

A shallow embedding of the batch HTML → PDF converter `src/html2pdf.py`
together with proofs about it.

The script drives a word-processing application through COM automation.
The embedding models:

* the numeric configuration constants of the script;
* `cm_to_points`, `set_page_setup` as pure functions on a `PageSetup` record;
* `resize_images_to_fit` as a pure transformation on lists of shapes,
  with the content-box computation (including its fallback branch) and the
  per-shape scaling arithmetic over `ℚ` (the Python code uses IEEE floats;
  over `ℚ` the ratio arithmetic is exact, so "within rounding tolerance"
  statements become exact equalities);
* `apply_header_footer` as a pure transformation on a `Section` record
  (headers/footers as paragraphs with text, alignment, font and field
  codes), mirroring the sequence of COM property assignments;
* `convert_all_html_to_pdf` as a trace semantics: a run over a directory
  listing produces a list of events (application dispatch, document open,
  PDF export, error logging, document close, application quit), with
  per-file failure injection for the stages guarded by the per-file
  `try`/`except`.
-/

namespace Html2Pdf

/-! ## Configuration constants (lines 8-25 of the source) -/

def HEADER_TEXT : String := "23BT521 CHEMICAL ENGINEERING LABORATORY FOR BIOTECHNOLOGISTS"

def FOOTER_TEXT : String := "GNANAMANI COLLEGE OF TECHNOLOGY"

def WD_PAPER_A4 : Int := 7

def WD_ORIENT_PORTRAIT : Int := 0

def WD_ALIGN_PARAGRAPH_LEFT : Int := 0

def WD_ALIGN_PARAGRAPH_CENTER : Int := 1

def WD_ALIGN_PARAGRAPH_RIGHT : Int := 2

def WD_HEADER_FOOTER_PRIMARY : Int := 1

def WD_FIELD_PAGE : Int := 33

def WD_COLOR_GRAY25 : Int := 12632256

def WD_COLOR_BLACK : Int := 0

def WD_EXPORT_FORMAT_PDF : Int := 17

def WD_EXPORT_OPTIMIZE_FOR_PRINT : Int := 0

def WD_EXPORT_RANGE_ALL_DOC : Int := 0

def WD_EXPORT_ITEM_DOC_CONTENT : Int := 0

def WD_EXPORT_CREATE_HEADING_BOOKMARKS : Int := 1

/-! ## Page setup (`cm_to_points`, `set_page_setup`) -/

/-- `cm_to_points(cm)`: convert centimeters to Word points,
`cm * 28.3464567` (the decimal literal of the source, exact over `ℚ`). -/
def cm_to_points (cm : ℚ) : ℚ := cm * (283464567 / 10000000)

/-- The `doc.PageSetup` COM object: the properties read or written by the
script. -/
structure PageSetup where
  PaperSize : Int
  Orientation : Int
  PageWidth : ℚ
  PageHeight : ℚ
  TopMargin : ℚ
  BottomMargin : ℚ
  LeftMargin : ℚ
  RightMargin : ℚ
  HeaderDistance : ℚ
  FooterDistance : ℚ
deriving DecidableEq, Repr

/-- `set_page_setup(doc)`: A4 portrait, fixed margins and
header/footer distances (lines 36-52). -/
def set_page_setup (ps : PageSetup) : PageSetup :=
  { ps with
    PaperSize := WD_PAPER_A4
    Orientation := WD_ORIENT_PORTRAIT
    TopMargin := cm_to_points (5/2)
    BottomMargin := cm_to_points 2
    LeftMargin := cm_to_points (5/2)
    RightMargin := cm_to_points 2
    HeaderDistance := cm_to_points 1
    FooterDistance := cm_to_points 1 }

/-! ## `resize_images_to_fit`: content box and per-shape scaling -/

/-- `content_width` as first computed (line 62). -/
def rawContentWidth (ps : PageSetup) : ℚ :=
  ps.PageWidth - ps.LeftMargin - ps.RightMargin

/-- `content_height` as first computed (lines 63-69). -/
def rawContentHeight (ps : PageSetup) : ℚ :=
  ps.PageHeight - ps.TopMargin - ps.BottomMargin - ps.HeaderDistance - ps.FooterDistance

/-- The guard of the fallback branch (line 71):
`content_width <= 0 or content_height <= 0`. -/
def fallbackTriggered (ps : PageSetup) : Prop :=
  rawContentWidth ps ≤ 0 ∨ rawContentHeight ps ≤ 0

instance (ps : PageSetup) : Decidable (fallbackTriggered ps) := by
  unfold fallbackTriggered; infer_instance

/-- The content width actually used for scaling (lines 62, 71-74). -/
def contentWidth (ps : PageSetup) : ℚ :=
  if fallbackTriggered ps then ps.PageWidth * (9/10) else rawContentWidth ps

/-- The content height actually used for scaling (lines 63-74). -/
def contentHeight (ps : PageSetup) : ℚ :=
  if fallbackTriggered ps then ps.PageHeight * (8/10) else rawContentHeight ps

/-- An inline or floating shape as the script sees it: its dimensions,
plus a flag recording whether accessing it raises a COM exception
(the `except Exception: continue` case of lines 88-90 / 105-106). -/
structure Shape where
  Width : ℚ
  Height : ℚ
  raises : Bool
deriving DecidableEq, Repr

/-- `scale = min(1.0, content_width / w, content_height / h)`
(lines 84, 101). -/
def computeScale (cw ch w h : ℚ) : ℚ :=
  min 1 (min (cw / w) (ch / h))

/-- The body of the per-shape loop (lines 78-90 and 94-106; the two loops
have identical bodies): a shape whose access raises is left untouched and
skipped; a shape with non-positive width or height is skipped; otherwise
the scale is applied only when `scale < 1.0`. -/
def resizeShape (cw ch : ℚ) (s : Shape) : Shape :=
  if s.raises then s
  else if s.Width ≤ 0 ∨ s.Height ≤ 0 then s
  else if computeScale cw ch s.Width s.Height < 1 then
    { s with Width := s.Width * computeScale cw ch s.Width s.Height,
             Height := s.Height * computeScale cw ch s.Width s.Height }
  else s

/-! ## Header/footer model (`apply_header_footer`) -/

/-- The font properties the script reads or writes on a `Range.Font`. -/
structure Font where
  Size : ℚ
  Italic : Bool
  Bold : Bool
  Color : Int
deriving DecidableEq, Repr

/-- A paragraph of a header or footer range: its text, paragraph alignment,
font, and the field codes added to it (`Fields.Add`). -/
structure Paragraph where
  Text : String
  Alignment : Int
  Font : Font
  Fields : List Int
deriving DecidableEq, Repr

instance : Inhabited Paragraph :=
  ⟨⟨"", WD_ALIGN_PARAGRAPH_LEFT, ⟨12, false, false, WD_COLOR_BLACK⟩, []⟩⟩

/-- A document section: the primary header range (treated as one
paragraph, as the script only formats it as a whole) and the primary
footer's paragraphs. -/
structure Section where
  Header : Paragraph
  Footer : List Paragraph
deriving DecidableEq, Repr

/-- Setting `Range.Text` on a whole header/footer range replaces its
content with the given text: one paragraph remains (the source comment at
line 138 records this), keeping the formatting of the range's first
paragraph; any fields in the old content are gone. -/
def setRangeText (t : String) (f : List Paragraph) : List Paragraph :=
  match f with
  | [] => [⟨t, WD_ALIGN_PARAGRAPH_LEFT, ⟨12, false, false, WD_COLOR_BLACK⟩, []⟩]
  | p :: _ => [{ p with Text := t, Fields := [] }]

/-- `InsertParagraphAfter` on a paragraph's range: a new empty paragraph
appears after it, inheriting the insertion point's formatting. -/
def insertParagraphAfter (p : Paragraph) : List Paragraph :=
  [p, { p with Text := "", Fields := [] }]

/-- The body of the per-section loop of `apply_header_footer`
(lines 118-167), as the sequence of COM property assignments:

* header: `Text := HEADER_TEXT`, right alignment, size 9, italic,
  gray-25 color (`Bold` is never assigned on the header);
* footer: clear the range, then on its single remaining paragraph set
  empty text, centered alignment, bold, non-italic, black color
  (`Size` is never assigned on this paragraph), add the `PAGE` field,
  insert a paragraph after it; then on the last paragraph set
  `FOOTER_TEXT`, right alignment, size 9, italic, gray-25 color. -/
def applySectionHeaderFooter (s : Section) : Section :=
  -- HEADER
  let h := s.Header
  let h := { h with Text := HEADER_TEXT }
  let h := { h with Alignment := WD_ALIGN_PARAGRAPH_RIGHT }
  let h := { h with Font := { h.Font with Size := 9, Italic := true, Color := WD_COLOR_GRAY25 } }
  -- FOOTER: clear existing content
  let f := setRangeText "" s.Footer
  -- page-number paragraph: footer.Range.Paragraphs(1), the only one
  let page := f.headI
  let page := { page with Text := "" }
  let page := { page with Alignment := WD_ALIGN_PARAGRAPH_CENTER }
  let page := { page with Font := { page.Font with Bold := true, Italic := false, Color := WD_COLOR_BLACK } }
  -- page_rng.Fields.Add(page_rng, WD_FIELD_PAGE)
  let page := { page with Fields := page.Fields ++ [WD_FIELD_PAGE] }
  -- page_rng.InsertParagraphAfter()
  let f := insertParagraphAfter page
  -- footer text paragraph: the last paragraph
  let last := f.getLastI
  let last := { last with Text := FOOTER_TEXT }
  let last := { last with Alignment := WD_ALIGN_PARAGRAPH_RIGHT }
  let last := { last with Font := { last.Font with Size := 9, Italic := true, Color := WD_COLOR_GRAY25 } }
  ⟨h, f.dropLast ++ [last]⟩

/-! ## Documents -/

/-- The parts of a Word document the script touches. -/
structure Document where
  PageSetup : PageSetup
  InlineShapes : List Shape
  Shapes : List Shape
  Sections : List Section
deriving DecidableEq, Repr

/-- `resize_images_to_fit(doc)` (lines 55-106): compute the content box
once, then run the two loops, over `doc.InlineShapes` and over
`doc.Shapes`, each applying the per-shape body to every shape. -/
def resize_images_to_fit (doc : Document) : Document :=
  let cw := contentWidth doc.PageSetup
  let ch := contentHeight doc.PageSetup
  { doc with
    InlineShapes := doc.InlineShapes.map (resizeShape cw ch)
    Shapes := doc.Shapes.map (resizeShape cw ch) }

/-- `apply_header_footer(doc)` (lines 109-167): apply the header/footer
assignments to every section. -/
def apply_header_footer (doc : Document) : Document :=
  { doc with Sections := doc.Sections.map applySectionHeaderFooter }

/-! ## Trace semantics of `convert_all_html_to_pdf` -/

/-- Observable events of a run of `convert_all_html_to_pdf`. -/
inductive Event where
  /-- `win32.Dispatch("Word.Application")` (line 197). -/
  | dispatch
  /-- `word.Documents.Open(str(html_file))` succeeded (line 206). -/
  | opened (name : String)
  /-- `doc.ExportAsFixedFormat(...)` wrote `dir / pdfName` (line 218). -/
  | exported (dir : String) (pdfName : String)
  /-- The `except` branch printed `Failed for {name}` (line 226). -/
  | errorLogged (name : String)
  /-- `doc.Close(SaveChanges=...)` succeeded for the named document
  (lines 223, 229). -/
  | closed (name : String) (saveChanges : Bool)
  /-- `word.Quit()` in the `finally` block (line 234). -/
  | quit
deriving DecidableEq, Repr

/-- The stages of per-document processing guarded by the per-file
`try`/`except` (lines 205-225). -/
inductive Stage where
  | openDoc
  | pageSetup
  | resizeImages
  | headerFooter
  | exportPdf
deriving DecidableEq, Repr

/-- A directory entry, with the first per-document stage (if any) at
which a COM exception is raised for this file. -/
structure HtmlFile where
  name : String
  failAt : Option Stage
deriving DecidableEq, Repr

/-- Structural `endsWith` on the underlying character lists. -/
def endsWithSuffix (s suff : String) : Bool :=
  suff.data.reverse.isPrefixOf s.data.reverse

/-- Index of the last `'.'` of a character list, if any. -/
def lastDotIdx (cs : List Char) : Option Nat :=
  match cs.reverse.findIdx? (fun c => c = '.') with
  | none => none
  | some j => some (cs.length - 1 - j)

/-- `pathlib.PurePath.stem`: the file name without its last suffix; the
suffix is nonempty only when the last dot is neither the first nor the
last character of the name. -/
def stemOf (name : String) : String :=
  let cs := name.data
  match lastDotIdx cs with
  | none => name
  | some i => if 0 < i ∧ i < cs.length - 1 then ⟨cs.take i⟩ else name

/-- `input_path.glob("*.html")`: the pattern matches exactly the names
ending in `".html"` (modelled case-sensitively; the pattern has a single
case on every platform, and no claim distinguishes case). -/
def matchesHtmlGlob (f : HtmlFile) : Bool :=
  endsWithSuffix f.name ".html"

/-- Structural lexicographic comparison of character lists by code
point, the order `sorted(...)` uses on the names. -/
def charListLe : List Char → List Char → Bool
  | [], _ => true
  | _ :: _, [] => false
  | a :: as, b :: bs =>
    if a.toNat < b.toNat then true
    else if b.toNat < a.toNat then false
    else charListLe as bs

/-- Ordering of directory entries by name, for `sorted(...)` (line 201). -/
def fileLe (a b : HtmlFile) : Prop :=
  charListLe a.name.data b.name.data = true

instance : DecidableRel fileLe := fun a b => by unfold fileLe; infer_instance

/-- `sorted(input_path.glob("*.html"))` (line 201): the matching entries
of the directory listing, sorted by name. -/
def selectedFiles (listing : List HtmlFile) : List HtmlFile :=
  List.insertionSort fileLe (listing.filter matchesHtmlGlob)

/-- `html_file.stem + ".pdf"` (line 203). -/
def pdfNameOf (f : HtmlFile) : String :=
  stemOf f.name ++ ".pdf"

/-- The events of one iteration of the file loop (lines 202-231).

* No failure: open, page setup, image resize, header/footer, export,
  then `doc.Close(SaveChanges=False)`.
* Failure at `Open`: the `except` branch logs the error; its
  `doc.Close` attempt acts on an unbound or already-closed handle from a
  previous iteration, raises, and is swallowed by the inner
  `try`/`except: pass` — no document of this file is ever open.
* Failure at a later stage: the document was opened; the error is
  logged and the `except` branch closes the document with
  `SaveChanges=False`. -/
def processFile (outDir : String) (f : HtmlFile) : List Event :=
  match f.failAt with
  | none =>
      [Event.opened f.name, Event.exported outDir (pdfNameOf f),
       Event.closed f.name false]
  | some Stage.openDoc => [Event.errorLogged f.name]
  | some _ =>
      [Event.opened f.name, Event.errorLogged f.name,
       Event.closed f.name false]

/-- `convert_all_html_to_pdf(input_dir, output_dir)` (lines 190-234) as a
trace. `listing` is the input directory's entries. `loopAbort = some k`
models the file iteration itself raising after `k` completed iterations
(an exception not caught by the per-file handler); the `finally` block
still runs `word.Quit()` before the exception propagates. -/
def convert_all_html_to_pdf (listing : List HtmlFile) (outDir : String)
    (loopAbort : Option Nat) : List Event :=
  let files := selectedFiles listing
  let body :=
    match loopAbort with
    | none => files.flatMap (processFile outDir)
    | some k => (files.take k).flatMap (processFile outDir)
  Event.dispatch :: body ++ [Event.quit]

/-! ## Helper lemmas -/

/-- A readable shape with positive dimensions goes through the scaling
branch of the loop body. -/
lemma resizeShape_of_pos (cw ch : ℚ) (s : Shape) (hr : s.raises = false)
    (hw : 0 < s.Width) (hh : 0 < s.Height) :
    resizeShape cw ch s =
      if computeScale cw ch s.Width s.Height < 1 then
        { s with Width := s.Width * computeScale cw ch s.Width s.Height,
                 Height := s.Height * computeScale cw ch s.Width s.Height }
      else s := by
  unfold resizeShape
  rw [if_neg (by simp [hr]), if_neg (by push_neg; exact ⟨hw, hh⟩)]

/-- A shape that raises or has a non-positive dimension is left
untouched. -/
lemma resizeShape_skip (cw ch : ℚ) (s : Shape)
    (hs : s.raises = true ∨ s.Width ≤ 0 ∨ s.Height ≤ 0) :
    resizeShape cw ch s = s := by
  unfold resizeShape
  rcases hs with h | h
  · rw [if_pos (by simp [h])]
  · by_cases hr : s.raises
    · rw [if_pos hr]
    · rw [if_neg hr, if_pos h]

/-! ## Theorems for the claims -/

/-- **C1.** For every inline or floating image with positive width `w` and
positive height `h`, the program computes
`scale = min(1, content_width/w, content_height/h)` and applies it only
when `scale < 1`, setting the new width to `w*scale` and the new height
to `h*scale`; the image is never enlarged (`scale ≤ 1`, result dimensions
bounded by the originals) and the original aspect ratio `w/h` is
preserved exactly (over `ℚ`, hence within any rounding tolerance). -/
theorem c1_image_scale_to_fit (cw ch w h : ℚ) (hw : 0 < w) (hh : 0 < h) :
    computeScale cw ch w h = min 1 (min (cw / w) (ch / h)) ∧
    computeScale cw ch w h ≤ 1 ∧
    (computeScale cw ch w h < 1 →
      resizeShape cw ch ⟨w, h, false⟩ =
        ⟨w * computeScale cw ch w h, h * computeScale cw ch w h, false⟩) ∧
    (¬ computeScale cw ch w h < 1 →
      resizeShape cw ch ⟨w, h, false⟩ = ⟨w, h, false⟩) ∧
    (resizeShape cw ch ⟨w, h, false⟩).Width ≤ w ∧
    (resizeShape cw ch ⟨w, h, false⟩).Height ≤ h ∧
    (resizeShape cw ch ⟨w, h, false⟩).Width * h =
      (resizeShape cw ch ⟨w, h, false⟩).Height * w := by
  have hle : computeScale cw ch w h ≤ 1 := min_le_left _ _
  have hr := resizeShape_of_pos cw ch ⟨w, h, false⟩ rfl hw hh
  by_cases hsc : computeScale cw ch w h < 1
  · rw [hr, if_pos hsc]
    refine ⟨rfl, hle, fun _ => rfl, fun hn => absurd hsc hn, ?_, ?_, by ring⟩
    · exact mul_le_of_le_one_right hw.le hle
    · exact mul_le_of_le_one_right hh.le hle
  · rw [hr, if_neg hsc]
    exact ⟨rfl, hle, fun hc => absurd hc hsc, fun _ => rfl, le_refl w, le_refl h,
      mul_comm w h⟩

/-- Witness for `c1_image_scale_to_fit`: a 200 × 100 image against a
100 × 50 content box is scaled by `1/2` in both dimensions. -/
theorem c1_image_scale_to_fit_witness :
    computeScale 100 50 200 100 = min 1 (min ((100 : ℚ) / 200) ((50 : ℚ) / 100)) ∧
    computeScale 100 50 200 100 ≤ 1 ∧
    (computeScale 100 50 200 100 < 1 →
      resizeShape 100 50 ⟨200, 100, false⟩ =
        ⟨200 * computeScale 100 50 200 100, 100 * computeScale 100 50 200 100, false⟩) ∧
    (¬ computeScale 100 50 200 100 < 1 →
      resizeShape 100 50 ⟨200, 100, false⟩ = ⟨200, 100, false⟩) ∧
    (resizeShape 100 50 ⟨200, 100, false⟩).Width ≤ 200 ∧
    (resizeShape 100 50 ⟨200, 100, false⟩).Height ≤ 100 ∧
    (resizeShape 100 50 ⟨200, 100, false⟩).Width * 100 =
      (resizeShape 100 50 ⟨200, 100, false⟩).Height * 200 :=
  c1_image_scale_to_fit 100 50 200 100 (by norm_num) (by norm_num)

/-- **C2.** For every image whose (positive) width is at most the content
width and whose (positive) height is at most the content height, the
computed scale equals 1 and the image's dimensions are left unchanged by
the loop body of `resize_images_to_fit`. -/
theorem c2_within_bounds_unchanged (cw ch : ℚ) (s : Shape)
    (hw : 0 < s.Width) (hh : 0 < s.Height)
    (hcw : s.Width ≤ cw) (hch : s.Height ≤ ch) :
    computeScale cw ch s.Width s.Height = 1 ∧ resizeShape cw ch s = s := by
  have h1 : (1 : ℚ) ≤ cw / s.Width := (one_le_div hw).mpr hcw
  have h2 : (1 : ℚ) ≤ ch / s.Height := (one_le_div hh).mpr hch
  have hsc : computeScale cw ch s.Width s.Height = 1 :=
    min_eq_left (le_min h1 h2)
  refine ⟨hsc, ?_⟩
  by_cases hr : s.raises
  · exact resizeShape_skip cw ch s (Or.inl hr)
  · rw [resizeShape_of_pos cw ch s (Bool.not_eq_true _ ▸ hr) hw hh,
      if_neg (by rw [hsc]; exact lt_irrefl 1)]

/-- Witness for `c2_within_bounds_unchanged`: a 50 × 80 image inside a
100 × 200 content box keeps scale 1 and is untouched. -/
theorem c2_within_bounds_unchanged_witness :
    computeScale 100 200 (Shape.Width ⟨50, 80, false⟩) (Shape.Height ⟨50, 80, false⟩) = 1 ∧
    resizeShape 100 200 ⟨50, 80, false⟩ = ⟨50, 80, false⟩ :=
  c2_within_bounds_unchanged 100 200 ⟨50, 80, false⟩
    (by norm_num) (by norm_num) (by norm_num) (by norm_num)

/-- **C5.** When the raw values are positive (no fallback), the content
area used by `resize_images_to_fit` is the page width minus the left and
right margins, and the page height minus the top and bottom margins and
the header and footer distances; both shape loops scale against exactly
this box. -/
theorem c5_content_box (doc : Document)
    (hw : 0 < rawContentWidth doc.PageSetup)
    (hh : 0 < rawContentHeight doc.PageSetup) :
    contentWidth doc.PageSetup =
      doc.PageSetup.PageWidth - doc.PageSetup.LeftMargin - doc.PageSetup.RightMargin ∧
    contentHeight doc.PageSetup =
      doc.PageSetup.PageHeight - doc.PageSetup.TopMargin - doc.PageSetup.BottomMargin -
        doc.PageSetup.HeaderDistance - doc.PageSetup.FooterDistance ∧
    (resize_images_to_fit doc).InlineShapes =
      doc.InlineShapes.map
        (resizeShape (rawContentWidth doc.PageSetup) (rawContentHeight doc.PageSetup)) ∧
    (resize_images_to_fit doc).Shapes =
      doc.Shapes.map
        (resizeShape (rawContentWidth doc.PageSetup) (rawContentHeight doc.PageSetup)) := by
  have hnf : ¬ fallbackTriggered doc.PageSetup := by
    rintro (hc | hc)
    · exact hc.not_lt hw
    · exact hc.not_lt hh
  have hcw : contentWidth doc.PageSetup = rawContentWidth doc.PageSetup := if_neg hnf
  have hch : contentHeight doc.PageSetup = rawContentHeight doc.PageSetup := if_neg hnf
  exact ⟨hcw, hch, by simp [resize_images_to_fit, hcw, hch],
    by simp [resize_images_to_fit, hcw, hch]⟩

/-- Witness for `c5_content_box`: a 595 × 842 page with margins
60/60/50/50 and header/footer distances 30/30 yields the subtracted
content box, used by both loops. -/
theorem c5_content_box_witness :
    contentWidth ⟨7, 0, 595, 842, 50, 50, 60, 60, 30, 30⟩ = 595 - 60 - 60 ∧
    contentHeight ⟨7, 0, 595, 842, 50, 50, 60, 60, 30, 30⟩ =
      842 - 50 - 50 - 30 - 30 ∧
    (resize_images_to_fit
        ⟨⟨7, 0, 595, 842, 50, 50, 60, 60, 30, 30⟩, [⟨700, 500, false⟩], [], []⟩).InlineShapes =
      [⟨700, 500, false⟩].map
        (resizeShape (rawContentWidth ⟨7, 0, 595, 842, 50, 50, 60, 60, 30, 30⟩)
          (rawContentHeight ⟨7, 0, 595, 842, 50, 50, 60, 60, 30, 30⟩)) ∧
    (resize_images_to_fit
        ⟨⟨7, 0, 595, 842, 50, 50, 60, 60, 30, 30⟩, [⟨700, 500, false⟩], [], []⟩).Shapes =
      ([] : List Shape).map
        (resizeShape (rawContentWidth ⟨7, 0, 595, 842, 50, 50, 60, 60, 30, 30⟩)
          (rawContentHeight ⟨7, 0, 595, 842, 50, 50, 60, 60, 30, 30⟩)) :=
  c5_content_box
    ⟨⟨7, 0, 595, 842, 50, 50, 60, 60, 30, 30⟩, [⟨700, 500, false⟩], [], []⟩
    (by norm_num [rawContentWidth]) (by norm_num [rawContentHeight])

/-- **C9.** If the raw content width or height is non-positive,
`resize_images_to_fit` falls back to `0.9 × page width` and
`0.8 × page height`; consequently the bounds used for scaling are
positive whenever the page dimensions are positive. -/
theorem c9_fallback_positive (ps : PageSetup) :
    (fallbackTriggered ps →
      contentWidth ps = ps.PageWidth * (9 / 10) ∧
      contentHeight ps = ps.PageHeight * (8 / 10)) ∧
    (0 < ps.PageWidth → 0 < ps.PageHeight →
      0 < contentWidth ps ∧ 0 < contentHeight ps) := by
  constructor
  · intro h
    exact ⟨if_pos h, if_pos h⟩
  · intro hpw hph
    by_cases h : fallbackTriggered ps
    · rw [contentWidth, contentHeight, if_pos h, if_pos h]
      exact ⟨mul_pos hpw (by norm_num), mul_pos hph (by norm_num)⟩
    · rw [contentWidth, contentHeight, if_neg h, if_neg h]
      rw [fallbackTriggered] at h
      push_neg at h
      exact h

/-- Witness for `c9_fallback_positive`: a 100 × 200 page whose margins
eat the whole width triggers the fallback, and the fallback bounds are
positive. -/
theorem c9_fallback_positive_witness :
    (contentWidth ⟨7, 0, 100, 200, 10, 10, 60, 60, 5, 5⟩ =
        PageSetup.PageWidth ⟨7, 0, 100, 200, 10, 10, 60, 60, 5, 5⟩ * (9 / 10) ∧
      contentHeight ⟨7, 0, 100, 200, 10, 10, 60, 60, 5, 5⟩ =
        PageSetup.PageHeight ⟨7, 0, 100, 200, 10, 10, 60, 60, 5, 5⟩ * (8 / 10)) ∧
    (0 < contentWidth ⟨7, 0, 100, 200, 10, 10, 60, 60, 5, 5⟩ ∧
      0 < contentHeight ⟨7, 0, 100, 200, 10, 10, 60, 60, 5, 5⟩) :=
  ⟨(c9_fallback_positive _).1 (Or.inl (by norm_num [rawContentWidth])),
   (c9_fallback_positive _).2 (by norm_num) (by norm_num)⟩

/-- **C10.** `resize_images_to_fit` leaves every shape that raises or has
a non-positive dimension unchanged, and such a shape only skips itself:
in both the inline-shape and the floating-shape loop, all other shapes
are still processed. -/
theorem c10_skip_is_isolated (doc : Document) (s : Shape)
    (hs : s.raises = true ∨ s.Width ≤ 0 ∨ s.Height ≤ 0) :
    resizeShape (contentWidth doc.PageSetup) (contentHeight doc.PageSetup) s = s ∧
    (∀ xs ys, doc.InlineShapes = xs ++ s :: ys →
      (resize_images_to_fit doc).InlineShapes =
        xs.map (resizeShape (contentWidth doc.PageSetup) (contentHeight doc.PageSetup)) ++
          s :: ys.map (resizeShape (contentWidth doc.PageSetup) (contentHeight doc.PageSetup))) ∧
    (∀ xs ys, doc.Shapes = xs ++ s :: ys →
      (resize_images_to_fit doc).Shapes =
        xs.map (resizeShape (contentWidth doc.PageSetup) (contentHeight doc.PageSetup)) ++
          s :: ys.map (resizeShape (contentWidth doc.PageSetup) (contentHeight doc.PageSetup))) := by
  have h1 := resizeShape_skip (contentWidth doc.PageSetup) (contentHeight doc.PageSetup) s hs
  refine ⟨h1, ?_, ?_⟩
  · intro xs ys hxs
    simp [resize_images_to_fit, hxs, h1]
  · intro xs ys hxs
    simp [resize_images_to_fit, hxs, h1]

/-- Witness for `c10_skip_is_isolated`: a zero-width shape sitting
between two healthy shapes is left untouched while both neighbours are
still processed, in each of the two loops. -/
theorem c10_skip_is_isolated_witness :
    resizeShape (contentWidth ⟨7, 0, 595, 842, 50, 50, 60, 60, 30, 30⟩)
        (contentHeight ⟨7, 0, 595, 842, 50, 50, 60, 60, 30, 30⟩) ⟨0, 10, false⟩ =
      ⟨0, 10, false⟩ ∧
    (resize_images_to_fit
        ⟨⟨7, 0, 595, 842, 50, 50, 60, 60, 30, 30⟩,
          [⟨50, 50, false⟩, ⟨0, 10, false⟩, ⟨30, 40, false⟩],
          [⟨0, 10, false⟩], []⟩).InlineShapes =
      [⟨50, 50, false⟩].map
          (resizeShape (contentWidth ⟨7, 0, 595, 842, 50, 50, 60, 60, 30, 30⟩)
            (contentHeight ⟨7, 0, 595, 842, 50, 50, 60, 60, 30, 30⟩)) ++
        ⟨0, 10, false⟩ ::
          [⟨30, 40, false⟩].map
            (resizeShape (contentWidth ⟨7, 0, 595, 842, 50, 50, 60, 60, 30, 30⟩)
              (contentHeight ⟨7, 0, 595, 842, 50, 50, 60, 60, 30, 30⟩)) ∧
    (resize_images_to_fit
        ⟨⟨7, 0, 595, 842, 50, 50, 60, 60, 30, 30⟩,
          [⟨50, 50, false⟩, ⟨0, 10, false⟩, ⟨30, 40, false⟩],
          [⟨0, 10, false⟩], []⟩).Shapes =
      ([] : List Shape).map
          (resizeShape (contentWidth ⟨7, 0, 595, 842, 50, 50, 60, 60, 30, 30⟩)
            (contentHeight ⟨7, 0, 595, 842, 50, 50, 60, 60, 30, 30⟩)) ++
        ⟨0, 10, false⟩ ::
          ([] : List Shape).map
            (resizeShape (contentWidth ⟨7, 0, 595, 842, 50, 50, 60, 60, 30, 30⟩)
              (contentHeight ⟨7, 0, 595, 842, 50, 50, 60, 60, 30, 30⟩)) :=
  ⟨(c10_skip_is_isolated
      ⟨⟨7, 0, 595, 842, 50, 50, 60, 60, 30, 30⟩,
        [⟨50, 50, false⟩, ⟨0, 10, false⟩, ⟨30, 40, false⟩],
        [⟨0, 10, false⟩], []⟩ ⟨0, 10, false⟩
      (Or.inr (Or.inl (by norm_num)))).1,
   (c10_skip_is_isolated
      ⟨⟨7, 0, 595, 842, 50, 50, 60, 60, 30, 30⟩,
        [⟨50, 50, false⟩, ⟨0, 10, false⟩, ⟨30, 40, false⟩],
        [⟨0, 10, false⟩], []⟩ ⟨0, 10, false⟩
      (Or.inr (Or.inl (by norm_num)))).2.1
      [⟨50, 50, false⟩] [⟨30, 40, false⟩] rfl,
   (c10_skip_is_isolated
      ⟨⟨7, 0, 595, 842, 50, 50, 60, 60, 30, 30⟩,
        [⟨50, 50, false⟩, ⟨0, 10, false⟩, ⟨30, 40, false⟩],
        [⟨0, 10, false⟩], []⟩ ⟨0, 10, false⟩
      (Or.inr (Or.inl (by norm_num)))).2.2 [] [] rfl⟩

/-- Every event of one file-loop iteration is an open, an export, an
error log, or a close-without-saving, each referring to that file. -/
lemma mem_processFile (outDir : String) (f : HtmlFile) (e : Event)
    (he : e ∈ processFile outDir f) :
    e = Event.opened f.name ∨ e = Event.exported outDir (pdfNameOf f) ∨
      e = Event.errorLogged f.name ∨ e = Event.closed f.name false := by
  rcases hf : f.failAt with _ | st
  · simp [processFile, hf] at he
    tauto
  · cases st <;> simp [processFile, hf] at he <;> tauto

/-- Events of the loop body all come from one of the processed files. -/
lemma mem_trace_body (outDir : String) (fs : List HtmlFile) (e : Event)
    (he : e ∈ fs.flatMap (processFile outDir)) :
    ∃ f ∈ fs,
      e = Event.opened f.name ∨ e = Event.exported outDir (pdfNameOf f) ∨
        e = Event.errorLogged f.name ∨ e = Event.closed f.name false := by
  rw [List.mem_flatMap] at he
  obtain ⟨f, hf, h⟩ := he
  exact ⟨f, hf, mem_processFile outDir f e h⟩

/-- A run's trace is the dispatch, then the events of some prefix of the
selected files, then the quit. -/
lemma convert_trace_shape (listing : List HtmlFile) (outDir : String)
    (loopAbort : Option Nat) :
    ∃ fs : List HtmlFile, (∀ f ∈ fs, f ∈ selectedFiles listing) ∧
      convert_all_html_to_pdf listing outDir loopAbort =
        Event.dispatch :: fs.flatMap (processFile outDir) ++ [Event.quit] := by
  cases loopAbort with
  | none => exact ⟨selectedFiles listing, fun f hf => hf, rfl⟩
  | some k =>
      exact ⟨(selectedFiles listing).take k,
        fun f hf => List.mem_of_mem_take hf, rfl⟩

/-- A file matching the glob is among the selected files. -/
lemma mem_selectedFiles (listing : List HtmlFile) (f : HtmlFile)
    (hf : f ∈ listing) (hext : matchesHtmlGlob f = true) :
    f ∈ selectedFiles listing := by
  unfold selectedFiles
  rw [(List.perm_insertionSort fileLe _).mem_iff]
  exact List.mem_filter.mpr ⟨hf, hext⟩

/-- Every event of a selected file's iteration appears in the full trace
of a run without loop abort. -/
lemma mem_trace_of_mem_processFile (listing : List HtmlFile) (outDir : String)
    (f : HtmlFile) (hsel : f ∈ selectedFiles listing) (e : Event)
    (he : e ∈ processFile outDir f) :
    e ∈ convert_all_html_to_pdf listing outDir none := by
  have heq : convert_all_html_to_pdf listing outDir none =
      Event.dispatch ::
        (selectedFiles listing).flatMap (processFile outDir) ++ [Event.quit] := rfl
  rw [heq]
  exact List.mem_cons_of_mem _
    (List.mem_append_left _ (List.mem_flatMap.mpr ⟨f, hsel, he⟩))

/-- **C6.** `apply_header_footer` visits every section; in each, the
header gets the fixed header text, right-aligned, size 9, italic, gray-25,
and the footer consists of a page-number paragraph — centered, bold,
non-italic, black, holding exactly the dynamic `PAGE` field — followed by
the fixed footer text, right-aligned, size 9, italic, gray-25. -/
theorem c6_header_footer_formatting (doc : Document) :
    (apply_header_footer doc).Sections = doc.Sections.map applySectionHeaderFooter ∧
    ∀ s : Section,
      (applySectionHeaderFooter s).Header.Text = HEADER_TEXT ∧
      (applySectionHeaderFooter s).Header.Alignment = WD_ALIGN_PARAGRAPH_RIGHT ∧
      (applySectionHeaderFooter s).Header.Font.Size = 9 ∧
      (applySectionHeaderFooter s).Header.Font.Italic = true ∧
      (applySectionHeaderFooter s).Header.Font.Color = WD_COLOR_GRAY25 ∧
      ∃ pagePara textPara,
        (applySectionHeaderFooter s).Footer = [pagePara, textPara] ∧
        pagePara.Fields = [WD_FIELD_PAGE] ∧
        pagePara.Alignment = WD_ALIGN_PARAGRAPH_CENTER ∧
        pagePara.Font.Bold = true ∧
        pagePara.Font.Italic = false ∧
        pagePara.Font.Color = WD_COLOR_BLACK ∧
        textPara.Text = FOOTER_TEXT ∧
        textPara.Alignment = WD_ALIGN_PARAGRAPH_RIGHT ∧
        textPara.Font.Size = 9 ∧
        textPara.Font.Italic = true ∧
        textPara.Font.Color = WD_COLOR_GRAY25 := by
  refine ⟨rfl, fun s => ?_⟩
  obtain ⟨h, f⟩ := s
  cases f with
  | nil =>
      exact ⟨rfl, rfl, rfl, rfl, rfl, _, _, rfl, rfl, rfl, rfl, rfl, rfl, rfl,
        rfl, rfl, rfl, rfl⟩
  | cons p rest =>
      exact ⟨rfl, rfl, rfl, rfl, rfl, _, _, rfl, rfl, rfl, rfl, rfl, rfl, rfl,
        rfl, rfl, rfl, rfl⟩

/-- **C7.** In every run — aborted file loop or not — the application
handle is dispatched exactly once, as the first event and hence before
any file is processed, and quit exactly once, as the last event (the
`finally` block). -/
theorem c7_app_handle_lifecycle (listing : List HtmlFile) (outDir : String)
    (loopAbort : Option Nat) :
    (convert_all_html_to_pdf listing outDir loopAbort).count Event.dispatch = 1 ∧
    (convert_all_html_to_pdf listing outDir loopAbort).count Event.quit = 1 ∧
    (convert_all_html_to_pdf listing outDir loopAbort).head? = some Event.dispatch ∧
    (convert_all_html_to_pdf listing outDir loopAbort).getLast? = some Event.quit := by
  obtain ⟨fs, -, heq⟩ := convert_trace_shape listing outDir loopAbort
  have hd : Event.dispatch ∉ fs.flatMap (processFile outDir) := by
    intro h
    obtain ⟨f, -, hf⟩ := mem_trace_body outDir fs _ h
    rcases hf with hf | hf | hf | hf <;> exact Event.noConfusion hf
  have hq : Event.quit ∉ fs.flatMap (processFile outDir) := by
    intro h
    obtain ⟨f, -, hf⟩ := mem_trace_body outDir fs _ h
    rcases hf with hf | hf | hf | hf <;> exact Event.noConfusion hf
  rw [heq]
  refine ⟨?_, ?_, rfl, ?_⟩
  · rw [List.count_append, List.count_cons_self,
      List.count_eq_zero.mpr hd]
    rfl
  · rw [List.count_append, List.count_cons_of_ne (by simp),
      List.count_eq_zero.mpr hq]
    rfl
  · exact List.getLast?_concat _

/-- **C3, as stated, is false**: the glob pattern is `*.html`, so a file
named `page.htm` is neither converted nor mentioned in an error; the run
over a directory holding only `page.htm` does nothing between dispatch
and quit. -/
theorem c3_counterexample_htm_skipped :
    endsWithSuffix "page.htm" ".htm" = true ∧
    convert_all_html_to_pdf [⟨"page.htm", none⟩] "out" none =
      [Event.dispatch, Event.quit] ∧
    Event.exported "out" "page.pdf" ∉
      convert_all_html_to_pdf [⟨"page.htm", none⟩] "out" none ∧
    Event.errorLogged "page.htm" ∉
      convert_all_html_to_pdf [⟨"page.htm", none⟩] "out" none := by
  decide

/-- **C3, amended.** For every file in the input directory whose name
ends in `.html`, the run either exports a PDF whose name is the file's
stem with extension `.pdf`, or logs an error naming that file — and this
holds for every such file of the listing, so processing continues past
failures. -/
theorem c3_amended_html_converted_or_logged (listing : List HtmlFile)
    (outDir : String) (f : HtmlFile)
    (hf : f ∈ listing) (hext : matchesHtmlGlob f = true) :
    Event.exported outDir (pdfNameOf f) ∈ convert_all_html_to_pdf listing outDir none ∨
    Event.errorLogged f.name ∈ convert_all_html_to_pdf listing outDir none := by
  have hsel := mem_selectedFiles listing f hf hext
  rcases hfa : f.failAt with _ | st
  · exact Or.inl (mem_trace_of_mem_processFile listing outDir f hsel _
      (by simp [processFile, hfa]))
  · exact Or.inr (mem_trace_of_mem_processFile listing outDir f hsel _
      (by cases st <;> simp [processFile, hfa]))

/-- Witness for `c3_amended_html_converted_or_logged`: with one healthy
file and one failing file, the healthy `a.html` gets an outcome. -/
theorem c3_amended_html_converted_or_logged_witness :
    Event.exported "out" (pdfNameOf ⟨"a.html", none⟩) ∈
      convert_all_html_to_pdf
        [⟨"b.html", some Stage.exportPdf⟩, ⟨"a.html", none⟩] "out" none ∨
    Event.errorLogged "a.html" ∈
      convert_all_html_to_pdf
        [⟨"b.html", some Stage.exportPdf⟩, ⟨"a.html", none⟩] "out" none :=
  c3_amended_html_converted_or_logged
    [⟨"b.html", some Stage.exportPdf⟩, ⟨"a.html", none⟩] "out"
    ⟨"a.html", none⟩ (by decide) (by decide)

/-- **C4.** The trace interleaves no file into another's events
(first conjunct: the whole run is the per-file event blocks in order,
so a failure in one file leaves the others processed). For a selected
file failing at any guarded stage, the error is logged with the file's
name, and — whenever the document was actually opened, i.e. the failing
stage is not `Open` itself — the document is closed with
`SaveChanges=False`; on success the document is likewise closed with
`SaveChanges=False`; and no close with `SaveChanges=True` ever occurs,
so the source file is never modified. -/
theorem c4_per_file_error_handling (listing : List HtmlFile) (outDir : String)
    (f : HtmlFile) (hf : f ∈ listing) (hext : matchesHtmlGlob f = true) :
    convert_all_html_to_pdf listing outDir none =
      Event.dispatch ::
        (selectedFiles listing).flatMap (processFile outDir) ++ [Event.quit] ∧
    (∀ st, f.failAt = some st →
      Event.errorLogged f.name ∈ convert_all_html_to_pdf listing outDir none ∧
      (st ≠ Stage.openDoc →
        Event.closed f.name false ∈ convert_all_html_to_pdf listing outDir none)) ∧
    (f.failAt = none →
      Event.closed f.name false ∈ convert_all_html_to_pdf listing outDir none) ∧
    (∀ n, Event.closed n true ∉ convert_all_html_to_pdf listing outDir none) := by
  have hsel := mem_selectedFiles listing f hf hext
  refine ⟨rfl, ?_, ?_, ?_⟩
  · intro st hst
    constructor
    · exact mem_trace_of_mem_processFile listing outDir f hsel _
        (by cases st <;> simp [processFile, hst])
    · intro hne
      refine mem_trace_of_mem_processFile listing outDir f hsel _ ?_
      cases st with
      | openDoc => exact absurd rfl hne
      | pageSetup => simp [processFile, hst]
      | resizeImages => simp [processFile, hst]
      | headerFooter => simp [processFile, hst]
      | exportPdf => simp [processFile, hst]
  · intro hnone
    exact mem_trace_of_mem_processFile listing outDir f hsel _
      (by simp [processFile, hnone])
  · intro n h
    have heq : convert_all_html_to_pdf listing outDir none =
        Event.dispatch ::
          (selectedFiles listing).flatMap (processFile outDir) ++ [Event.quit] := rfl
    rw [heq] at h
    rcases List.mem_cons.mp h with h | h
    · exact Event.noConfusion h
    rcases List.mem_append.mp h with h | h
    · obtain ⟨g, -, hg⟩ := mem_trace_body outDir _ _ h
      rcases hg with hg | hg | hg | hg
      · exact Event.noConfusion hg
      · exact Event.noConfusion hg
      · exact Event.noConfusion hg
      · injection hg with h1 h2
        exact Bool.noConfusion h2
    · exact Event.noConfusion (List.mem_singleton.mp h)

/-- Witness for `c4_per_file_error_handling`: with `good.html` succeeding
and `bad.html` failing at export, the error for `bad.html` is logged,
both documents are closed without saving, and no close ever saves. -/
theorem c4_per_file_error_handling_witness :
    Event.errorLogged "bad.html" ∈
      convert_all_html_to_pdf
        [⟨"good.html", none⟩, ⟨"bad.html", some Stage.exportPdf⟩] "out" none ∧
    Event.closed "bad.html" false ∈
      convert_all_html_to_pdf
        [⟨"good.html", none⟩, ⟨"bad.html", some Stage.exportPdf⟩] "out" none ∧
    Event.closed "good.html" false ∈
      convert_all_html_to_pdf
        [⟨"good.html", none⟩, ⟨"bad.html", some Stage.exportPdf⟩] "out" none ∧
    Event.closed "bad.html" true ∉
      convert_all_html_to_pdf
        [⟨"good.html", none⟩, ⟨"bad.html", some Stage.exportPdf⟩] "out" none :=
  ⟨((c4_per_file_error_handling
      [⟨"good.html", none⟩, ⟨"bad.html", some Stage.exportPdf⟩] "out"
      ⟨"bad.html", some Stage.exportPdf⟩ (by decide) (by decide)).2.1
      Stage.exportPdf rfl).1,
   ((c4_per_file_error_handling
      [⟨"good.html", none⟩, ⟨"bad.html", some Stage.exportPdf⟩] "out"
      ⟨"bad.html", some Stage.exportPdf⟩ (by decide) (by decide)).2.1
      Stage.exportPdf rfl).2 (by decide),
   (c4_per_file_error_handling
      [⟨"good.html", none⟩, ⟨"bad.html", some Stage.exportPdf⟩] "out"
      ⟨"good.html", none⟩ (by decide) (by decide)).2.2.1 rfl,
   (c4_per_file_error_handling
      [⟨"good.html", none⟩, ⟨"bad.html", some Stage.exportPdf⟩] "out"
      ⟨"bad.html", some Stage.exportPdf⟩ (by decide) (by decide)).2.2.2
      "bad.html"⟩

end Html2Pdf
